import Mathlib

/-!
Shallow embedding of `scripts/generate_bin_qr_codes.py` (VibeSweep bin QR
generator) together with proofs of the specification's testable properties.

Modelling conventions:
* Python floats become exact rationals `ℚ`; the sample coordinates are short
  decimal literals, so the embedding is exact on them.
* Machine effects (file writes) are made explicit: each operation returns the
  list of write events it performs, and a filesystem is a partial map from
  paths to file contents.
* Per-call wall-clock timestamps (`datetime.utcnow().isoformat()`) are
  supplied by an explicit `times : Nat → String` parameter giving the
  timestamp string observed at the k-th payload creation of a run.
* The `geohash2` library (an external dependency, not part of this
  repository) is modelled by the standard geohash base-32 interval-halving
  algorithm it implements, over `ℚ`.
-/

namespace BinQR

/-- Character of a single decimal digit, models Python decimal formatting. -/
def natDigitChar (d : Nat) : Char := Char.ofNat (48 + d)

/-- Fuel-driven accumulator loop producing the big-endian decimal digit
characters of a natural number. -/
def natDecCharsGo : Nat → Nat → List Char → List Char
  | 0, _, acc => acc
  | fuel + 1, n, acc =>
    if n < 10 then natDigitChar n :: acc
    else natDecCharsGo fuel (n / 10) (natDigitChar (n % 10) :: acc)

/-- Decimal digit characters of a natural number, models Python `str(n)`. -/
def natDecChars (n : Nat) : List Char := natDecCharsGo (n + 1) n []

/-- Python format `03d`: the decimal form zero-padded to width 3. -/
def pyFormat03dChars (n : Nat) : List Char :=
  List.replicate (3 - (natDecChars n).length) '0' ++ natDecChars n

/-- Python `f"03d"`-formatted string of a natural number. -/
def pyFormat03d (n : Nat) : String := ⟨pyFormat03dChars n⟩

/-- Python `str.upper` (ASCII case mapping, character by character). -/
def pyUpper (s : String) : String := ⟨s.data.map Char.toUpper⟩

/-- Python `str.lower` (ASCII case mapping, character by character). -/
def pyLower (s : String) : String := ⟨s.data.map Char.toLower⟩

/-- Python `str.replace` for a single-character pattern, as used for the
`safe_name` sanitisation in the script. -/
def pyReplaceChar (s : String) (c r : Char) : String :=
  ⟨s.data.map (fun x => if x = c then r else x)⟩

/-- Whether a string ends with the path separator, models Python
`str.endswith` for the one-character separator. -/
def endsWithSep (s : String) : Bool := s.data.getLast? = some '/'

/-- Head part contributed by the directory in Python `os.path.join(dir, name)`
for the relative names the script joins. -/
def dirJoinHead (dir : String) : String :=
  if dir = "" then "" else if endsWithSep dir then dir else dir ++ "/"

/-- Python `os.path.join(dir, name)` for the script's relative names. -/
def pathJoin (dir name : String) : String := dirJoinHead dir ++ name

/-! Geohash model (the `geohash2` dependency). -/

/-- Base-32 alphabet of the geohash encoding. -/
def base32Chars : List Char :=
  ['0', '1', '2', '3', '4', '5', '6', '7', '8', '9', 'b', 'c', 'd', 'e', 'f',
   'g', 'h', 'j', 'k', 'm', 'n', 'p', 'q', 'r', 's', 't', 'u', 'v', 'w', 'x',
   'y', 'z']

/-- Character of a 5-bit geohash value. -/
def charOfVal (v : Nat) : Char := base32Chars.getD v '?'

/-- Value of a geohash base-32 character (the library's decode map). -/
def valOfChar (c : Char) : Nat := base32Chars.indexOf c

/-- Value of one 5-bit group, most significant bit first (the library ORs
masks 16, 8, 4, 2, 1 in this order). -/
def valOfBits (b0 b1 b2 b3 b4 : Bool) : Nat :=
  (cond b0 16 0) + (cond b1 8 0) + (cond b2 4 0) + (cond b3 2 0) + (cond b4 1 0)

/-- Bits of a 5-bit value, most significant first. -/
def bitsOfVal (v : Nat) : List Bool :=
  [v.testBit 4, v.testBit 3, v.testBit 2, v.testBit 1, v.testBit 0]

/-- Characters of a bit stream, grouped five bits per character. -/
def bitsToChars : List Bool → List Char
  | b0 :: b1 :: b2 :: b3 :: b4 :: rest =>
    charOfVal (valOfBits b0 b1 b2 b3 b4) :: bitsToChars rest
  | _ => []

/-- Bit stream of a geohash character string. -/
def charsToBits : List Char → List Bool
  | [] => []
  | c :: cs => bitsOfVal (valOfChar c) ++ charsToBits cs

/-- Bit production loop of `geohash2.encode`: `n` interval-halving steps,
alternating longitude (when `even`) and latitude, emitting `true` when the
coordinate lies strictly above the midpoint. -/
def encodeBits : Nat → Bool → ℚ → ℚ → ℚ → ℚ → ℚ → ℚ → List Bool
  | 0, _, _, _, _, _, _, _ => []
  | n + 1, even, latLo, latHi, lonLo, lonHi, lat, lon =>
    if even then
      let mid := (lonLo + lonHi) / 2
      if mid < lon then
        true :: encodeBits n (!even) latLo latHi mid lonHi lat lon
      else
        false :: encodeBits n (!even) latLo latHi lonLo mid lat lon
    else
      let mid := (latLo + latHi) / 2
      if mid < lat then
        true :: encodeBits n (!even) mid latHi lonLo lonHi lat lon
      else
        false :: encodeBits n (!even) latLo mid lonLo lonHi lat lon

/-- Interval state reached by `geohash2.decode_exactly` after consuming a bit
stream, together with the running half-width error terms. -/
structure GeoIntervals where
  latLo : ℚ
  latHi : ℚ
  lonLo : ℚ
  lonHi : ℚ
  latErr : ℚ
  lonErr : ℚ

/-- Interval narrowing loop of `geohash2.decode_exactly`. -/
def decodeBitsE : List Bool → Bool → ℚ → ℚ → ℚ → ℚ → ℚ → ℚ → GeoIntervals
  | [], _, latLo, latHi, lonLo, lonHi, latErr, lonErr =>
    ⟨latLo, latHi, lonLo, lonHi, latErr, lonErr⟩
  | b :: bs, even, latLo, latHi, lonLo, lonHi, latErr, lonErr =>
    if even then
      let mid := (lonLo + lonHi) / 2
      if b then decodeBitsE bs (!even) latLo latHi mid lonHi latErr (lonErr / 2)
      else decodeBitsE bs (!even) latLo latHi lonLo mid latErr (lonErr / 2)
    else
      let mid := (latLo + latHi) / 2
      if b then decodeBitsE bs (!even) mid latHi lonLo lonHi (latErr / 2) lonErr
      else decodeBitsE bs (!even) latLo mid lonLo lonHi (latErr / 2) lonErr

/-- Model of `geohash2.encode` at a given character precision. -/
def geohash_encode (lat lon : ℚ) (precision : Nat) : String :=
  ⟨bitsToChars (encodeBits (5 * precision) true (-90) 90 (-180) 180 lat lon)⟩

/-- Decoded point: interval centers and the half-width error of each axis. -/
structure DecodedPoint where
  lat : ℚ
  lon : ℚ
  latErr : ℚ
  lonErr : ℚ

/-- Center point and error terms of a final interval state. -/
def pointOfState (st : GeoIntervals) : DecodedPoint :=
  ⟨(st.latLo + st.latHi) / 2, (st.lonLo + st.lonHi) / 2, st.latErr, st.lonErr⟩

/-- Model of `geohash2.decode_exactly`: the centers of the final intervals
together with the axis error terms. -/
def geohash_decode_exactly (s : String) : DecodedPoint :=
  pointOfState (decodeBitsE (charsToBits s.data) true (-90) 90 (-180) 180 90 180)

/-! Data model of the script. -/

/-- Sample bin location entry of `BinQRGenerator.SAMPLE_LOCATIONS`. -/
structure Location where
  lat : ℚ
  lng : ℚ
  name : String

/-- The class attribute `BinQRGenerator.CATEGORIES`. -/
def CATEGORIES : List String :=
  ["recycle", "organic", "landfill", "ewaste", "hazardous"]

/-- The class attribute `BinQRGenerator.SAMPLE_LOCATIONS`. -/
def SAMPLE_LOCATIONS : List Location :=
  [⟨37.7749, -122.4194, "Downtown SF - Market St"⟩,
   ⟨37.7849, -122.4094, "Downtown SF - Union Square"⟩,
   ⟨37.7649, -122.4294, "Downtown SF - SOMA"⟩,
   ⟨37.8719, -122.2585, "UC Berkeley Campus"⟩,
   ⟨37.8619, -122.2485, "Berkeley Downtown"⟩,
   ⟨37.7694, -122.4862, "Golden Gate Park"⟩,
   ⟨37.8024, -122.4058, "Presidio Park"⟩,
   ⟨37.7849, -122.4094, "Mission District"⟩,
   ⟨37.7949, -122.3994, "Castro District"⟩,
   ⟨37.8049, -122.4194, "Pacific Heights"⟩]

/-- The QR payload dictionary built by `create_bin_payload`. -/
structure BinPayload where
  bin_id : String
  category : String
  latitude : ℚ
  longitude : ℚ
  geohash : String
  generated_at : String
  version : String

/-- A generated bin record: the payload dictionary merged with the location
name, the QR file path and the file name, as accumulated by the generators. -/
structure BinRecord where
  bin_id : String
  category : String
  latitude : ℚ
  longitude : ℚ
  geohash : String
  generated_at : String
  version : String
  location_name : String
  qr_file : String
  filename : String

/-- Python dict-merge building a `BinRecord` from a payload plus the three
extra keys. -/
def BinRecord.ofPayload (p : BinPayload) (name fp fn : String) : BinRecord :=
  { bin_id := p.bin_id, category := p.category, latitude := p.latitude,
    longitude := p.longitude, geohash := p.geohash,
    generated_at := p.generated_at, version := p.version,
    location_name := name, qr_file := fp, filename := fn }

/-- The manifest dictionary built by `save_bin_manifest`. -/
structure Manifest where
  generated_at : String
  total_bins : Nat
  categories : List String
  locations_count : Nat
  bins : List BinRecord

/-- Contents written to a file by the script: either a rasterized QR image of
a compact JSON payload, or the manifest JSON. -/
inductive FileContent
  | image (jsonPayload : String) (format : String)
  | manifestFile (m : Manifest)

/-- Whether a file content is the manifest. -/
def FileContent.isManifest : FileContent → Bool
  | FileContent.manifestFile _ => true
  | _ => false

/-- One file write performed by the script. -/
structure WriteEvent where
  path : String
  content : FileContent

/-- Whether a write event writes the manifest. -/
def WriteEvent.isManifest (w : WriteEvent) : Bool := w.content.isManifest

/-- A filesystem state: partial map from paths to contents. -/
def FileSys : Type := String → Option FileContent

/-- Effect of a single write on a filesystem (Python open-for-write truncates,
so a write replaces whatever was at the path). -/
def applyWrite (fs : FileSys) (w : WriteEvent) : FileSys :=
  fun p => if p = w.path then some w.content else fs p

/-- Effect of a sequence of writes, applied in order. -/
def applyWrites (fs : FileSys) (ws : List WriteEvent) : FileSys :=
  ws.foldl applyWrite fs

/-! Embeddings of the script's functions. -/

/-- The method `BinQRGenerator.generate_bin_id`. -/
def generate_bin_id (location_idx : Nat) (category : String) : String :=
  "BIN_" ++ pyFormat03d location_idx ++ "_" ++ pyUpper category

/-- The method `BinQRGenerator.create_bin_payload`; `now` is the string the
call to `datetime.utcnow().isoformat()` returns. -/
def create_bin_payload (bin_id category : String) (lat lng : ℚ) (now : String) :
    BinPayload :=
  { bin_id := bin_id, category := category, latitude := lat, longitude := lng,
    geohash := geohash_encode lat lng 8, generated_at := now, version := "1.0" }

/-- JSON string literal (the payload strings contain no escapes). -/
def jsonStr (s : String) : String := "\"" ++ s ++ "\""

/-- Decimal-free exact rendering of a coordinate used by the JSON model; the
determinism properties do not depend on the rendering chosen. -/
def showCoord (q : ℚ) : String :=
  (if q < 0 then "-" else "") ++ (⟨natDecChars q.num.natAbs⟩ : String) ++ "/" ++
    (⟨natDecChars q.den⟩ : String)

/-- The seven serialized `key:value` members of the compact payload JSON, in
Python dict insertion order (`json.dumps` keeps insertion order). -/
def payloadFieldStrings (p : BinPayload) : List String :=
  ["\"bin_id\":" ++ jsonStr p.bin_id,
   "\"category\":" ++ jsonStr p.category,
   "\"latitude\":" ++ showCoord p.latitude,
   "\"longitude\":" ++ showCoord p.longitude,
   "\"geohash\":" ++ jsonStr p.geohash,
   "\"generated_at\":" ++ jsonStr p.generated_at,
   "\"version\":" ++ jsonStr p.version]

/-- Comma-joined member list. -/
def joinComma : List String → String
  | [] => ""
  | [s] => s
  | s :: rest => s ++ "," ++ joinComma rest

/-- The compact payload JSON text produced inside `generate_qr_code` by
`json.dumps` with compact separators. -/
def payloadJsonCompact (p : BinPayload) : String :=
  "\x7b" ++ joinComma (payloadFieldStrings p) ++ "\x7d"

/-- The method `BinQRGenerator.generate_qr_code`: serializes the payload to
compact JSON, rasterizes it (rasterization is external and kept abstract as
an `image` content holding the encoded JSON), writes the image file and
returns the file path. -/
def generate_qr_code (output_dir : String) (payload : BinPayload)
    (filename fmt : String) : String × WriteEvent :=
  let filepath := pathJoin output_dir (filename ++ "." ++ pyLower fmt)
  (filepath, ⟨filepath, FileContent.image (payloadJsonCompact payload) fmt⟩)

/-- The method `BinQRGenerator.generate_all_bins`: one record per
(location, category) pair, locations outermost. -/
def generate_all_bins (output_dir fmt : String) (times : Nat → String) :
    List BinRecord × List WriteEvent :=
  let items := SAMPLE_LOCATIONS.enum.flatMap (fun li =>
    CATEGORIES.enum.map (fun ci =>
      let loc_idx := li.1
      let location := li.2
      let category := ci.2
      let bin_id := generate_bin_id loc_idx category
      let payload := create_bin_payload bin_id category location.lat
        location.lng (times (loc_idx * CATEGORIES.length + ci.1))
      let safe_name := pyReplaceChar (pyReplaceChar location.name ' ' '_') '-' '_'
      let filename := safe_name ++ "_" ++ category ++ "_" ++ bin_id
      let pr := generate_qr_code output_dir payload filename fmt
      (BinRecord.ofPayload payload location.name pr.1 filename, pr.2)))
  (items.map Prod.fst, items.map Prod.snd)

/-- The manifest dictionary literal inside `save_bin_manifest`. -/
def buildManifest (bins : List BinRecord) (now : String) : Manifest :=
  { generated_at := now, total_bins := bins.length, categories := CATEGORIES,
    locations_count := SAMPLE_LOCATIONS.length, bins := bins }

/-- The method `BinQRGenerator.save_bin_manifest`: writes the manifest JSON to
`os.path.join(output_dir, 'bin_manifest.json')` and returns that path. -/
def save_bin_manifest (output_dir : String) (bins : List BinRecord)
    (now : String) : String × List WriteEvent :=
  let manifest_path := pathJoin output_dir "bin_manifest.json"
  let manifest := buildManifest bins now
  (manifest_path, [⟨manifest_path, FileContent.manifestFile manifest⟩])

/-- The method `BinQRGenerator.generate_test_bins`: `count` records cycling
through the sample locations and categories. -/
def generate_test_bins (output_dir fmt : String) (times : Nat → String)
    (count : Nat) : List BinRecord × List WriteEvent :=
  let items := (List.range count).map (fun i =>
    let location := SAMPLE_LOCATIONS.get
      ⟨i % SAMPLE_LOCATIONS.length, Nat.mod_lt i (by decide)⟩
    let category := CATEGORIES.get
      ⟨i % CATEGORIES.length, Nat.mod_lt i (by decide)⟩
    let bin_id := "TEST_" ++ pyFormat03d i ++ "_" ++ pyUpper category
    let payload := create_bin_payload bin_id category location.lat location.lng
      (times i)
    let filename := "test_" ++ pyFormat03d i ++ "_" ++ category ++ "_" ++ bin_id
    let pr := generate_qr_code output_dir payload filename fmt
    (BinRecord.ofPayload payload location.name pr.1 filename, pr.2))
  (items.map Prod.fst, items.map Prod.snd)

/-- Successful-path run of `main` in full mode: generate all bins, then save
the manifest; returns the records, the manifest path and the ordered write
trace of the whole run. -/
def run_full (output_dir fmt : String) (times : Nat → String)
    (manifestTime : String) : List BinRecord × String × List WriteEvent :=
  let g := generate_all_bins output_dir fmt times
  let s := save_bin_manifest output_dir g.1 manifestTime
  (g.1, s.1, g.2 ++ s.2)

/-- Successful-path run of `main` in test mode. -/
def run_test (output_dir fmt : String) (times : Nat → String) (count : Nat)
    (manifestTime : String) : List BinRecord × String × List WriteEvent :=
  let g := generate_test_bins output_dir fmt times count
  let s := save_bin_manifest output_dir g.1 manifestTime
  (g.1, s.1, g.2 ++ s.2)

/-! Control-flow model of `main` and of the Python process semantics. -/

/-- A Python exception: an ordinary `Exception` (caught by
`except Exception`) or a `SystemExit` carrying an exit code (raised by
`sys.exit`, in particular by `argparse` on a CLI error; not caught by
`except Exception`). -/
inductive PyExc
  | exc (msg : String)
  | systemExit (code : Nat)

/-- Outcome of running a Python computation: normal value or raised
exception. -/
inductive PyResult (α : Type)
  | normal (a : α)
  | raised (e : PyExc)

/-- Parsed CLI arguments of the script. -/
structure Args where
  output_dir : String
  format : String
  test_only : Bool
  count : Nat

/-- The body of the `try` block of `main`: the chosen generation call
followed by `save_bin_manifest`; an exception in the first step skips the
second. -/
def tryBody (gen : PyResult (List BinRecord)) (save : PyResult String) :
    PyResult String :=
  match gen with
  | PyResult.raised e => PyResult.raised e
  | PyResult.normal _ => save

/-- The function `main`, with the outcome of each effectful step supplied as
a parameter: `argparse.parse_args` (raises `SystemExit 2` on a CLI error),
generator construction (`ensure_output_dir`, outside the `try` block), and
the two steps of the `try` block. The handler `except Exception` catches
ordinary exceptions, returns 1; on success `main` returns 0. -/
def mainModel (parse : PyResult Args) (init : PyResult Unit)
    (gen : PyResult (List BinRecord)) (save : PyResult String) :
    PyResult Nat :=
  match parse with
  | PyResult.raised e => PyResult.raised e
  | PyResult.normal _ =>
    match init with
    | PyResult.raised e => PyResult.raised e
    | PyResult.normal _ =>
      match tryBody gen save with
      | PyResult.raised (PyExc.exc _) => PyResult.normal 1
      | PyResult.raised (PyExc.systemExit c) =>
        PyResult.raised (PyExc.systemExit c)
      | PyResult.normal _ => PyResult.normal 0

/-- Process exit code of `exit(main())` under Python semantics: a normal
return value becomes the exit code; an uncaught `SystemExit` exits with its
code; any other uncaught exception makes the interpreter exit with code 1. -/
def processExitCode (r : PyResult Nat) : Nat :=
  match r with
  | PyResult.normal n => n
  | PyResult.raised (PyExc.exc _) => 1
  | PyResult.raised (PyExc.systemExit c) => c

/-- The `SystemExit` raised by `argparse` when CLI parsing fails. -/
def argparseFailure : PyExc := PyExc.systemExit 2

/-- Accumulator step reading one decimal digit character (proof helper). -/
def decStep (a : Nat) (c : Char) : Nat := 10 * a + (c.toNat - 48)

/-- Containment invariant of the decode intervals around an encoded point
(proof helper). -/
def goodState (st : GeoIntervals) (lat lon : ℚ) : Prop :=
  st.latLo ≤ lat ∧ lat ≤ st.latHi ∧ st.lonLo ≤ lon ∧ lon ≤ st.lonHi ∧
  st.latHi - st.latLo = 2 * st.latErr ∧ st.lonHi - st.lonLo = 2 * st.lonErr

/-! Decimal formatting lemmas: the zero-padded decimal form of an index can
be read back, which yields injectivity of the generated names. -/

theorem toNat_natDigitChar {d : Nat} (h : d < 10) :
    (natDigitChar d).toNat = 48 + d := by
  interval_cases d <;> decide

theorem isDigit_natDigitChar {d : Nat} (h : d < 10) :
    (natDigitChar d).isDigit = true := by
  interval_cases d <;> decide

theorem foldl_decStep_natDecCharsGo (fuel : Nat) :
    ∀ n acc a, n < fuel →
      ∃ p, 0 < p ∧
        List.foldl decStep a (natDecCharsGo fuel n acc) =
          List.foldl decStep (a * p + n) acc := by
  induction fuel with
  | zero => intro n acc a h; omega
  | succ fuel ih =>
    intro n acc a h
    by_cases h10 : n < 10
    · refine ⟨10, by omega, ?_⟩
      simp only [natDecCharsGo, if_pos h10, List.foldl]
      have : decStep a (natDigitChar n) = a * 10 + n := by
        simp [decStep, toNat_natDigitChar h10]; omega
      rw [this]
    · have hdiv : n / 10 < fuel := by
        have h1 : n / 10 < n := Nat.div_lt_self (by omega) (by omega)
        omega
      obtain ⟨p, hp, hre⟩ := ih (n / 10) (natDigitChar (n % 10) :: acc) a hdiv
      refine ⟨10 * p, by omega, ?_⟩
      simp only [natDecCharsGo, if_neg h10]
      rw [hre]
      simp only [List.foldl]
      have harith : a * (10 * p) = 10 * (a * p) := by ring
      have : decStep (a * p + n / 10) (natDigitChar (n % 10)) = a * (10 * p) + n := by
        simp [decStep, toNat_natDigitChar (show n % 10 < 10 by omega), harith]
        omega
      rw [this]

theorem foldl_decStep_natDecChars (n : Nat) :
    List.foldl decStep 0 (natDecChars n) = n := by
  obtain ⟨p, _, h⟩ := foldl_decStep_natDecCharsGo (n + 1) n [] 0 (by omega)
  simpa [natDecChars] using h

theorem isDigit_natDecCharsGo (fuel : Nat) :
    ∀ n acc, (∀ c ∈ acc, c.isDigit = true) →
      ∀ c ∈ natDecCharsGo fuel n acc, c.isDigit = true := by
  induction fuel with
  | zero => intro n acc hacc; exact hacc
  | succ fuel ih =>
    intro n acc hacc c hc
    by_cases h10 : n < 10
    · simp only [natDecCharsGo, if_pos h10] at hc
      rcases List.mem_cons.1 hc with hc | hc
      · exact hc ▸ isDigit_natDigitChar h10
      · exact hacc c hc
    · simp only [natDecCharsGo, if_neg h10] at hc
      refine ih (n / 10) _ ?_ c hc
      intro x hx
      rcases List.mem_cons.1 hx with hx | hx
      · exact hx ▸ isDigit_natDigitChar (show n % 10 < 10 by omega)
      · exact hacc x hx

theorem isDigit_pyFormat03dChars (n : Nat) :
    ∀ c ∈ pyFormat03dChars n, c.isDigit = true := by
  intro c hc
  rcases List.mem_append.1 hc with hc | hc
  · have := List.eq_of_mem_replicate hc
    subst this; decide
  · exact isDigit_natDecCharsGo (n + 1) n [] (by simp) c hc

theorem foldl_decStep_replicate_zero (k : Nat) (l : List Char) :
    List.foldl decStep 0 (List.replicate k '0' ++ l) =
      List.foldl decStep 0 l := by
  induction k with
  | zero => rfl
  | succ k ih =>
    have hz : decStep 0 '0' = 0 := by decide
    simpa [List.replicate_succ, List.foldl, hz] using ih

theorem foldl_decStep_pyFormat03dChars (n : Nat) :
    List.foldl decStep 0 (pyFormat03dChars n) = n := by
  unfold pyFormat03dChars
  rw [foldl_decStep_replicate_zero, foldl_decStep_natDecChars]

theorem takeWhile_append_cons {p : Char → Bool} :
    ∀ (l : List Char) (c : Char) (t : List Char),
      (∀ x ∈ l, p x = true) → p c = false →
      List.takeWhile p (l ++ c :: t) = l := by
  intro l
  induction l with
  | nil => intro c t _ hc; simp [List.takeWhile_cons, hc]
  | cons a l ih =>
    intro c t hl hc
    have ha := hl a (by simp)
    simp [List.takeWhile_cons, ha, ih c t (fun x hx => hl x (by simp [hx])) hc]

theorem pyFormat03d_sandwich {i j : Nat} {t1 t2 : List Char}
    (h : pyFormat03dChars i ++ '_' :: t1 = pyFormat03dChars j ++ '_' :: t2) :
    i = j := by
  have hv := congrArg
    (fun l => List.foldl decStep 0 (List.takeWhile Char.isDigit l)) h
  simp only at hv
  rw [takeWhile_append_cons _ _ _ (isDigit_pyFormat03dChars i) (by decide),
    takeWhile_append_cons _ _ _ (isDigit_pyFormat03dChars j) (by decide),
    foldl_decStep_pyFormat03dChars, foldl_decStep_pyFormat03dChars] at hv
  exact hv

theorem sandwich_inj {pre : List Char} {i j : Nat} {t1 t2 : List Char}
    (h : pre ++ (pyFormat03dChars i ++ '_' :: t1) =
      pre ++ (pyFormat03dChars j ++ '_' :: t2)) : i = j :=
  pyFormat03d_sandwich (List.append_cancel_left h)

/-! Geohash lemmas. -/

theorem length_encodeBits (n : Nat) :
    ∀ (even : Bool) (latLo latHi lonLo lonHi lat lon : ℚ),
      (encodeBits n even latLo latHi lonLo lonHi lat lon).length = n := by
  induction n with
  | zero => intro even a b c d x y; rfl
  | succ n ih =>
    intro even a b c d x y
    simp only [encodeBits]
    split <;> split <;> simp [ih]

theorem chunk_roundtrip (b0 b1 b2 b3 b4 : Bool) :
    bitsOfVal (valOfChar (charOfVal (valOfBits b0 b1 b2 b3 b4))) =
      [b0, b1, b2, b3, b4] := by
  cases b0 <;> cases b1 <;> cases b2 <;> cases b3 <;> cases b4 <;> decide

theorem charsToBits_bitsToChars (k : Nat) :
    ∀ bits : List Bool, bits.length = 5 * k →
      charsToBits (bitsToChars bits) = bits := by
  induction k with
  | zero =>
    intro bits h
    have hb : bits = [] := List.eq_nil_of_length_eq_zero (by omega)
    subst hb; rfl
  | succ k ih =>
    intro bits h
    match bits with
    | [] => simp at h
    | [b0] => simp at h; omega
    | [b0, b1] => simp at h; omega
    | [b0, b1, b2] => simp at h; omega
    | [b0, b1, b2, b3] => simp at h; omega
    | b0 :: b1 :: b2 :: b3 :: b4 :: rest =>
      have hlen : rest.length = 5 * k := by
        simp only [List.length_cons] at h; omega
      simp only [bitsToChars, charsToBits, chunk_roundtrip, ih rest hlen]
      rfl

theorem length_bitsToChars (k : Nat) :
    ∀ bits : List Bool, bits.length = 5 * k →
      (bitsToChars bits).length = k := by
  induction k with
  | zero =>
    intro bits h
    have hb : bits = [] := List.eq_nil_of_length_eq_zero (by omega)
    subst hb; rfl
  | succ k ih =>
    intro bits h
    match bits with
    | [] => simp at h
    | [b0] => simp at h; omega
    | [b0, b1] => simp at h; omega
    | [b0, b1, b2] => simp at h; omega
    | [b0, b1, b2, b3] => simp at h; omega
    | b0 :: b1 :: b2 :: b3 :: b4 :: rest =>
      have hlen : rest.length = 5 * k := by
        simp only [List.length_cons] at h; omega
      simp [bitsToChars, ih rest hlen]

theorem length_geohash_encode (lat lon : ℚ) (p : Nat) :
    (geohash_encode lat lon p).length = p := by
  show (bitsToChars (encodeBits (5 * p) true (-90) 90 (-180) 180 lat lon)).length = p
  exact length_bitsToChars p _ (length_encodeBits (5 * p) true _ _ _ _ _ _)

theorem decodeBitsE_encodeBits (n : Nat) :
    ∀ (even : Bool) (latLo latHi lonLo lonHi lat lon latErr lonErr : ℚ),
      latLo ≤ lat → lat ≤ latHi → lonLo ≤ lon → lon ≤ lonHi →
      latHi - latLo = 2 * latErr → lonHi - lonLo = 2 * lonErr →
      goodState
        (decodeBitsE (encodeBits n even latLo latHi lonLo lonHi lat lon)
          even latLo latHi lonLo lonHi latErr lonErr) lat lon := by
  induction n with
  | zero =>
    intro even a b c d x y e1 e2 h1 h2 h3 h4 h5 h6
    exact ⟨h1, h2, h3, h4, h5, h6⟩
  | succ n ih =>
    intro even a b c d x y e1 e2 h1 h2 h3 h4 h5 h6
    cases even
    · simp only [encodeBits, Bool.false_eq_true, if_false, Bool.not_false]
      by_cases hc : (a + b) / 2 < x
      · rw [if_pos hc]
        simp only [decodeBitsE, if_true, Bool.not_false, Bool.false_eq_true,
          if_false]
        exact ih true ((a + b) / 2) b c d x y (e1 / 2) e2 (le_of_lt hc) h2 h3
          h4 (by linarith) h6
      · rw [if_neg hc]
        simp only [decodeBitsE, Bool.false_eq_true, if_false, Bool.not_false]
        exact ih true a ((a + b) / 2) c d x y (e1 / 2) e2 h1 (le_of_not_lt hc)
          h3 h4 (by linarith) h6
    · simp only [encodeBits, if_true, Bool.not_true]
      by_cases hc : (c + d) / 2 < y
      · rw [if_pos hc]
        simp only [decodeBitsE, if_true, Bool.not_true]
        exact ih false a b ((c + d) / 2) d x y e1 (e2 / 2) h1 h2 (le_of_lt hc)
          h4 h5 (by linarith)
      · rw [if_neg hc]
        simp only [decodeBitsE, if_true, Bool.not_true, Bool.false_eq_true,
          if_false]
        exact ih false a b c ((c + d) / 2) x y e1 (e2 / 2) h1 h2 h3
          (le_of_not_lt hc) h5 (by linarith)

theorem decodeBitsE_err (k : Nat) :
    ∀ (bits : List Bool) (a b c d e1 e2 : ℚ), bits.length = 2 * k →
      (decodeBitsE bits true a b c d e1 e2).latErr = e1 / 2 ^ k ∧
      (decodeBitsE bits true a b c d e1 e2).lonErr = e2 / 2 ^ k := by
  induction k with
  | zero =>
    intro bits a b c d e1 e2 h
    have hb : bits = [] := List.eq_nil_of_length_eq_zero (by omega)
    subst hb
    simp [decodeBitsE]
  | succ k ih =>
    intro bits a b c d e1 e2 h
    match bits with
    | [] => simp at h
    | [b1] => simp at h; omega
    | b1 :: b2 :: rest =>
      have hlen : rest.length = 2 * k := by
        simp only [List.length_cons] at h; omega
      have hhalf1 : e1 / 2 / 2 ^ k = e1 / 2 ^ (k + 1) := by
        rw [div_div, ← pow_succ']
      have hhalf2 : e2 / 2 / 2 ^ k = e2 / 2 ^ (k + 1) := by
        rw [div_div, ← pow_succ']
      cases b1 <;> cases b2 <;>
        simp only [decodeBitsE, if_true, Bool.not_true, Bool.not_false,
          Bool.false_eq_true, if_false] <;>
        · obtain ⟨hl, hr⟩ := ih rest _ _ _ _ _ _ hlen
          rw [hl, hr, hhalf1, hhalf2]
          exact ⟨rfl, rfl⟩

theorem data_underscore : "_".data = ['_'] := rfl

theorem data_pyFormat03d (n : Nat) : (pyFormat03d n).data = pyFormat03dChars n :=
  rfl

/-- Decoding the precision-8 geohash of a point in range recovers the point
up to the final half-cell error terms, which are exactly the 8-character
cell tolerances. -/
theorem geohash_decode_encode (lat lon : ℚ)
    (h : -90 ≤ lat ∧ lat ≤ 90 ∧ -180 ≤ lon ∧ lon ≤ 180) :
    |(geohash_decode_exactly (geohash_encode lat lon 8)).lat - lat| ≤
        (geohash_decode_exactly (geohash_encode lat lon 8)).latErr ∧
    |(geohash_decode_exactly (geohash_encode lat lon 8)).lon - lon| ≤
        (geohash_decode_exactly (geohash_encode lat lon 8)).lonErr ∧
    (geohash_decode_exactly (geohash_encode lat lon 8)).latErr = 90 / 2 ^ 20 ∧
    (geohash_decode_exactly (geohash_encode lat lon 8)).lonErr = 180 / 2 ^ 20 := by
  obtain ⟨h1, h2, h3, h4⟩ := h
  have hlen := length_encodeBits (5 * 8) true (-90) 90 (-180) 180 lat lon
  have hrt := charsToBits_bitsToChars 8 _ hlen
  have hdp : geohash_decode_exactly (geohash_encode lat lon 8) =
      pointOfState
        (decodeBitsE (encodeBits (5 * 8) true (-90) 90 (-180) 180 lat lon)
          true (-90) 90 (-180) 180 90 180) := by
    show pointOfState
        (decodeBitsE
          (charsToBits
            (bitsToChars (encodeBits (5 * 8) true (-90) 90 (-180) 180 lat lon)))
          true (-90) 90 (-180) 180 90 180) = _
    rw [hrt]
  have hgood := decodeBitsE_encodeBits (5 * 8) true (-90) 90 (-180) 180 lat lon
    90 180 h1 h2 h3 h4 (by norm_num) (by norm_num)
  have herr := decodeBitsE_err 20
    (encodeBits (5 * 8) true (-90) 90 (-180) 180 lat lon)
    (-90) 90 (-180) 180 90 180 (by rw [hlen])
  obtain ⟨g1, g2, g3, g4, g5, g6⟩ := hgood
  obtain ⟨e1, e2⟩ := herr
  rw [hdp]
  simp only [pointOfState]
  refine ⟨?_, ?_, e1, e2⟩
  · rw [abs_le]
    constructor <;> linarith
  · rw [abs_le]
    constructor <;> linarith

/-! Claim theorems. -/

/-- C2: for every list of bin records passed to `save_bin_manifest`, the
serialized manifest object has `total_bins` equal to the length of its
`bins` field, and `bins` is exactly the record list passed in, in order. -/
theorem manifest_total_bins_correct (output_dir : String)
    (bins : List BinRecord) (now : String) :
    (buildManifest bins now).total_bins = (buildManifest bins now).bins.length ∧
    (buildManifest bins now).bins = bins ∧
    (save_bin_manifest output_dir bins now).2 =
      [⟨pathJoin output_dir "bin_manifest.json",
        FileContent.manifestFile (buildManifest bins now)⟩] :=
  ⟨rfl, rfl, rfl⟩

/-- C10: the manifest's `categories` field is always the full static
5-element category list and `locations_count` is always 10 (the length of
the static sample-location list), regardless of the bins passed in; in
particular a test-mode run with any count still reports the full lists. -/
theorem manifest_static_metadata (bins : List BinRecord) (now : String) :
    (buildManifest bins now).categories = CATEGORIES ∧
    CATEGORIES.length = 5 ∧
    (buildManifest bins now).locations_count = SAMPLE_LOCATIONS.length ∧
    SAMPLE_LOCATIONS.length = 10 ∧
    (∀ (output_dir fmt : String) (times : Nat → String) (count : Nat)
        (manifestTime : String),
      (buildManifest (generate_test_bins output_dir fmt times count).1
          manifestTime).categories = CATEGORIES ∧
      (buildManifest (generate_test_bins output_dir fmt times count).1
          manifestTime).locations_count = 10) :=
  ⟨rfl, rfl, rfl, rfl, fun _ _ _ _ _ => ⟨rfl, rfl⟩⟩

/-- C9: the manifest writer performs exactly one write, at the fixed path
`output_dir/bin_manifest.json`, whose content is the manifest of the record
sequence plus run metadata; applied to any prior filesystem it replaces
whatever was at that path and leaves every other path unchanged. -/
theorem manifest_writer_frame (output_dir : String) (bins : List BinRecord)
    (now : String) :
    (save_bin_manifest output_dir bins now).1 =
      pathJoin output_dir "bin_manifest.json" ∧
    (save_bin_manifest output_dir bins now).2 =
      [⟨pathJoin output_dir "bin_manifest.json",
        FileContent.manifestFile (buildManifest bins now)⟩] ∧
    (∀ fs : FileSys,
      applyWrites fs (save_bin_manifest output_dir bins now).2
          (pathJoin output_dir "bin_manifest.json") =
        some (FileContent.manifestFile (buildManifest bins now))) ∧
    (∀ (fs : FileSys) (q : String),
      q ≠ pathJoin output_dir "bin_manifest.json" →
      applyWrites fs (save_bin_manifest output_dir bins now).2 q = fs q) := by
  refine ⟨rfl, rfl, ?_, ?_⟩
  · intro fs
    simp [applyWrites, applyWrite, save_bin_manifest]
  · intro fs q hq
    simp [applyWrites, applyWrite, save_bin_manifest, hq]

/-- Witness for `manifest_writer_frame`: at a concrete filesystem and a
concrete distinct path the frame condition evaluates as stated. -/
theorem manifest_writer_frame_witness :
    ("other" : String) ≠ pathJoin "out" "bin_manifest.json" ∧
    applyWrites (fun _ => none) (save_bin_manifest "out" [] "T").2 "other" =
      none := by
  have h := manifest_writer_frame "out" [] "T"
  refine ⟨by decide, ?_⟩
  exact h.2.2.2 (fun _ => none) "other" (by decide)

/-- C6 counterexample: a CLI parsing failure makes `argparse` raise
`SystemExit 2`, which `except Exception` does not catch, so the process
exits with code 2, not 1 as the claim states. -/
theorem main_exit_code_cli_counterexample :
    processExitCode
      (mainModel (PyResult.raised argparseFailure) (PyResult.normal ())
        (PyResult.normal []) (PyResult.normal "m")) = 2 ∧
    (2 : Nat) ≠ 1 :=
  ⟨rfl, by decide⟩

/-- C6 amended: the process exits 0 on success; exceptions raised inside the
`try` block (generation or manifest saving) are caught by the top-level
driver, which returns 1; an exception during generator initialization
(output-directory creation) is not caught by the driver but still terminates
the process with exit code 1 via the interpreter's uncaught-exception
handling; a CLI parsing failure exits with the `SystemExit` code 2 raised by
`argparse`, not 1. -/
theorem main_exit_codes (a : Args) (bins : List BinRecord) (p m1 m2 : String)
    (gen : PyResult (List BinRecord)) (save : PyResult String) (c : Nat) :
    processExitCode (mainModel (PyResult.normal a) (PyResult.normal ())
      (PyResult.normal bins) (PyResult.normal p)) = 0 ∧
    processExitCode (mainModel (PyResult.normal a) (PyResult.normal ())
      (PyResult.raised (PyExc.exc m1)) save) = 1 ∧
    mainModel (PyResult.normal a) (PyResult.normal ())
      (PyResult.raised (PyExc.exc m1)) save = PyResult.normal 1 ∧
    processExitCode (mainModel (PyResult.normal a) (PyResult.normal ())
      (PyResult.normal bins) (PyResult.raised (PyExc.exc m2))) = 1 ∧
    processExitCode (mainModel (PyResult.normal a)
      (PyResult.raised (PyExc.exc m1)) gen save) = 1 ∧
    mainModel (PyResult.normal a) (PyResult.raised (PyExc.exc m1)) gen save =
      PyResult.raised (PyExc.exc m1) ∧
    processExitCode (mainModel (PyResult.raised (PyExc.systemExit c))
      (PyResult.normal ()) gen save) = c :=
  ⟨rfl, rfl, rfl, rfl, rfl, rfl, rfl⟩

/-- C3: payload construction is deterministic in bin id, category, latitude
and longitude; two payloads built from the same inputs at different times
agree on every serialized JSON member except `generated_at` (member index 5),
and agree as records once the timestamp is overwritten. -/
theorem payload_deterministic (bin_id category : String) (lat lng : ℚ)
    (t1 t2 : String) :
    (payloadFieldStrings
        (create_bin_payload bin_id category lat lng t1)).eraseIdx 5 =
      (payloadFieldStrings
        (create_bin_payload bin_id category lat lng t2)).eraseIdx 5 ∧
    create_bin_payload bin_id category lat lng t1 =
      { create_bin_payload bin_id category lat lng t2 with
        generated_at := t1 } ∧
    payloadJsonCompact (create_bin_payload bin_id category lat lng t1) =
      payloadJsonCompact
        { create_bin_payload bin_id category lat lng t2 with
          generated_at := t1 } :=
  ⟨rfl, rfl, rfl⟩

/-- C7: the payload's geohash field is the geohash encoding of its latitude
and longitude at fixed precision 8, hence always 8 characters long. -/
theorem payload_geohash_precision (bin_id category : String) (lat lng : ℚ)
    (now : String) :
    (create_bin_payload bin_id category lat lng now).geohash =
      geohash_encode lat lng 8 ∧
    (create_bin_payload bin_id category lat lng now).geohash.length = 8 :=
  ⟨rfl, length_geohash_encode lat lng 8⟩

/-- C8: decoding the payload's geohash yields a point within the
8-character-cell tolerance of the original coordinates: each axis center is
within the reported error of the input, and the errors are exactly the
precision-8 half-cell sizes. -/
theorem payload_geohash_roundtrip (bin_id category : String) (lat lng : ℚ)
    (now : String)
    (h : -90 ≤ lat ∧ lat ≤ 90 ∧ -180 ≤ lng ∧ lng ≤ 180) :
    |(geohash_decode_exactly
        (create_bin_payload bin_id category lat lng now).geohash).lat - lat| ≤
      (geohash_decode_exactly
        (create_bin_payload bin_id category lat lng now).geohash).latErr ∧
    |(geohash_decode_exactly
        (create_bin_payload bin_id category lat lng now).geohash).lon - lng| ≤
      (geohash_decode_exactly
        (create_bin_payload bin_id category lat lng now).geohash).lonErr ∧
    (geohash_decode_exactly
        (create_bin_payload bin_id category lat lng now).geohash).latErr =
      90 / 2 ^ 20 ∧
    (geohash_decode_exactly
        (create_bin_payload bin_id category lat lng now).geohash).lonErr =
      180 / 2 ^ 20 :=
  geohash_decode_encode lat lng h

/-- Witness for `payload_geohash_roundtrip` at the first sample location. -/
theorem payload_geohash_roundtrip_witness :
    ((-90 : ℚ) ≤ 37.7749 ∧ (37.7749 : ℚ) ≤ 90 ∧
      (-180 : ℚ) ≤ -122.4194 ∧ (-122.4194 : ℚ) ≤ 180) ∧
    (|(geohash_decode_exactly
        (create_bin_payload "BIN_000_RECYCLE" "recycle" 37.7749 (-122.4194)
          "T").geohash).lat - 37.7749| ≤
      (geohash_decode_exactly
        (create_bin_payload "BIN_000_RECYCLE" "recycle" 37.7749 (-122.4194)
          "T").geohash).latErr ∧
    |(geohash_decode_exactly
        (create_bin_payload "BIN_000_RECYCLE" "recycle" 37.7749 (-122.4194)
          "T").geohash).lon - -122.4194| ≤
      (geohash_decode_exactly
        (create_bin_payload "BIN_000_RECYCLE" "recycle" 37.7749 (-122.4194)
          "T").geohash).lonErr ∧
    (geohash_decode_exactly
        (create_bin_payload "BIN_000_RECYCLE" "recycle" 37.7749 (-122.4194)
          "T").geohash).latErr = 90 / 2 ^ 20 ∧
    (geohash_decode_exactly
        (create_bin_payload "BIN_000_RECYCLE" "recycle" 37.7749 (-122.4194)
          "T").geohash).lonErr = 180 / 2 ^ 20) :=
  ⟨⟨by norm_num, by norm_num, by norm_num, by norm_num⟩,
    payload_geohash_roundtrip "BIN_000_RECYCLE" "recycle" 37.7749 (-122.4194)
      "T" ⟨by norm_num, by norm_num, by norm_num, by norm_num⟩⟩

/-- C1: within a single run, full mode or test mode with any count, the
bin ids of the returned records are pairwise distinct. -/
theorem bin_ids_unique_within_run (output_dir fmt : String)
    (times : Nat → String) (count : Nat) :
    ((generate_all_bins output_dir fmt times).1.map BinRecord.bin_id).Nodup ∧
    ((generate_test_bins output_dir fmt times count).1.map
      BinRecord.bin_id).Nodup := by
  constructor
  · have hmap : (generate_all_bins output_dir fmt times).1.map
        BinRecord.bin_id =
        SAMPLE_LOCATIONS.enum.flatMap
          (fun li => CATEGORIES.map (fun c => generate_bin_id li.1 c)) := rfl
    rw [hmap]
    decide
  · have hmap : (generate_test_bins output_dir fmt times count).1.map
        BinRecord.bin_id =
        (List.range count).map (fun i =>
          "TEST_" ++ pyFormat03d i ++ "_" ++
            pyUpper (CATEGORIES.get
              ⟨i % CATEGORIES.length, Nat.mod_lt i (by decide)⟩)) := by
      simp only [generate_test_bins, List.map_map]
      rfl
    rw [hmap]
    refine List.Nodup.map ?_ (List.nodup_range count)
    intro i j hij
    have hd := congrArg String.data hij
    simp only [String.data_append, data_pyFormat03d, data_underscore,
      List.append_assoc, List.singleton_append] at hd
    exact sandwich_inj hd

/-- C4: test mode with count `N` produces exactly `N` records and `N` image
writes at pairwise distinct file paths, record `i` cycling through the same
static location and category lists used by full mode at indices `i mod 10`
and `i mod 5`, and the manifest built from the records lists exactly them. -/
theorem test_mode_output (output_dir fmt : String) (times : Nat → String)
    (count : Nat) (manifestTime : String) :
    (generate_test_bins output_dir fmt times count).1.length = count ∧
    (generate_test_bins output_dir fmt times count).2.length = count ∧
    ((generate_test_bins output_dir fmt times count).2.map
      WriteEvent.path).Nodup ∧
    ((generate_test_bins output_dir fmt times count).1.map
      BinRecord.qr_file).Nodup ∧
    (∀ i (hi : i < (generate_test_bins output_dir fmt times count).1.length),
      ((generate_test_bins output_dir fmt times count).1.get ⟨i, hi⟩).category =
        CATEGORIES.get ⟨i % CATEGORIES.length, Nat.mod_lt i (by decide)⟩ ∧
      ((generate_test_bins output_dir fmt times count).1.get
          ⟨i, hi⟩).location_name =
        (SAMPLE_LOCATIONS.get
          ⟨i % SAMPLE_LOCATIONS.length, Nat.mod_lt i (by decide)⟩).name ∧
      ((generate_test_bins output_dir fmt times count).1.get ⟨i, hi⟩).latitude =
        (SAMPLE_LOCATIONS.get
          ⟨i % SAMPLE_LOCATIONS.length, Nat.mod_lt i (by decide)⟩).lat ∧
      ((generate_test_bins output_dir fmt times count).1.get
          ⟨i, hi⟩).longitude =
        (SAMPLE_LOCATIONS.get
          ⟨i % SAMPLE_LOCATIONS.length, Nat.mod_lt i (by decide)⟩).lng) ∧
    (buildManifest (generate_test_bins output_dir fmt times count).1
        manifestTime).bins =
      (generate_test_bins output_dir fmt times count).1 ∧
    (buildManifest (generate_test_bins output_dir fmt times count).1
        manifestTime).total_bins = count := by
  have hpaths : ∀ (u v : Nat → String) (w : String),
      Function.Injective (fun i =>
        pathJoin output_dir
          ("test_" ++ pyFormat03d i ++ "_" ++ u i ++ "_" ++ v i ++ "." ++ w)) := by
    intro u v w i j hij
    have hd := congrArg String.data hij
    simp only [pathJoin, String.data_append, data_pyFormat03d, data_underscore,
      List.append_assoc, List.singleton_append] at hd
    exact sandwich_inj (List.append_cancel_left hd)
  refine ⟨by simp [generate_test_bins], by simp [generate_test_bins], ?_, ?_,
    ?_, rfl, by simp [generate_test_bins, buildManifest]⟩
  · have hmap : (generate_test_bins output_dir fmt times count).2.map
        WriteEvent.path =
        (List.range count).map (fun i =>
          pathJoin output_dir
            ("test_" ++ pyFormat03d i ++ "_" ++
              CATEGORIES.get ⟨i % CATEGORIES.length, Nat.mod_lt i (by decide)⟩
              ++ "_" ++ ("TEST_" ++ pyFormat03d i ++ "_" ++
                pyUpper (CATEGORIES.get
                  ⟨i % CATEGORIES.length, Nat.mod_lt i (by decide)⟩)) ++
              "." ++ pyLower fmt)) := by
      simp only [generate_test_bins, List.map_map]
      rfl
    rw [hmap]
    exact List.Nodup.map (hpaths _ _ _) (List.nodup_range count)
  · have hmap : (generate_test_bins output_dir fmt times count).1.map
        BinRecord.qr_file =
        (List.range count).map (fun i =>
          pathJoin output_dir
            ("test_" ++ pyFormat03d i ++ "_" ++
              CATEGORIES.get ⟨i % CATEGORIES.length, Nat.mod_lt i (by decide)⟩
              ++ "_" ++ ("TEST_" ++ pyFormat03d i ++ "_" ++
                pyUpper (CATEGORIES.get
                  ⟨i % CATEGORIES.length, Nat.mod_lt i (by decide)⟩)) ++
              "." ++ pyLower fmt)) := by
      simp only [generate_test_bins, List.map_map]
      rfl
    rw [hmap]
    exact List.Nodup.map (hpaths _ _ _) (List.nodup_range count)
  · intro i hi
    have hi' : i < count := by
      simpa [generate_test_bins] using hi
    refine ⟨?_, ?_, ?_, ?_⟩ <;>
      simp [generate_test_bins, List.get_eq_getElem, List.getElem_map,
        List.getElem_range, BinRecord.ofPayload, create_bin_payload]

/-- Witness for `test_mode_output` at count 3, index 1. -/
theorem test_mode_output_witness :
    (1 : Nat) < (generate_test_bins "./qr_codes" "PNG" (fun _ => "T") 3).1.length ∧
    ((generate_test_bins "./qr_codes" "PNG" (fun _ => "T") 3).1.get
        ⟨1, by decide⟩).category =
      CATEGORIES.get ⟨1 % CATEGORIES.length, Nat.mod_lt 1 (by decide)⟩ := by
  have h := test_mode_output "./qr_codes" "PNG" (fun _ => "T") 3 "M"
  exact ⟨by decide, (h.2.2.2.2.1 1 (by decide)).1⟩

/-- C5: full mode produces exactly one record per pair of the Cartesian
product of the 10 sample locations and the 5 categories, 50 in total,
locations outermost and categories innermost in list order; the run's write
trace contains exactly one manifest write, which comes after all the image
writes. -/
theorem full_mode_cartesian (output_dir fmt : String) (times : Nat → String)
    (manifestTime : String) :
    (generate_all_bins output_dir fmt times).1.length =
      SAMPLE_LOCATIONS.length * CATEGORIES.length ∧
    SAMPLE_LOCATIONS.length * CATEGORIES.length = 50 ∧
    (generate_all_bins output_dir fmt times).1.map
        (fun r => (r.location_name, r.category)) =
      SAMPLE_LOCATIONS.flatMap
        (fun loc => CATEGORIES.map (fun c => (loc.name, c))) ∧
    (SAMPLE_LOCATIONS.flatMap
        (fun loc => CATEGORIES.map (fun c => (loc.name, c)))).Nodup ∧
    (run_full output_dir fmt times manifestTime).2.2 =
      (generate_all_bins output_dir fmt times).2 ++
        [⟨pathJoin output_dir "bin_manifest.json",
          FileContent.manifestFile
            (buildManifest (generate_all_bins output_dir fmt times).1
              manifestTime)⟩] ∧
    (run_full output_dir fmt times manifestTime).2.2.filter
        WriteEvent.isManifest =
      [⟨pathJoin output_dir "bin_manifest.json",
        FileContent.manifestFile
          (buildManifest (generate_all_bins output_dir fmt times).1
            manifestTime)⟩] ∧
    (run_full output_dir fmt times manifestTime).2.2.getLast? =
      some ⟨pathJoin output_dir "bin_manifest.json",
        FileContent.manifestFile
          (buildManifest (generate_all_bins output_dir fmt times).1
            manifestTime)⟩ := by
  refine ⟨rfl, rfl, rfl, by decide, rfl, ?_, ?_⟩
  · rfl
  · rfl

end BinQR
